import Mathlib

/-!
Shallow embedding of `server.js` from the `sutcoin/business` repository:
an Express handler that validates a business-registration form, normalizes
uploaded images, stores them in an object store, and emails a notification.

Conventions of the embedding:
* JS strings are Lean `String`s; a value that may be `null`/`undefined` is an
  `Option String` (`none` models both `null` and `undefined`).
* Raw byte buffers are `List Nat` (only their contents and length matter here).
* External services (the sharp image codec, S3, nodemailer) are oracles passed
  in an `Env` record; a fallible call is an `Except Unit _` result.
* JS `Math.round` is `fun q => ⌊q + 1/2⌋` on rationals.
-/

/-- Characters used by the escaping helpers, named to avoid quoting issues. -/
def ampC : Char := Char.ofNat 38

def ltC : Char := Char.ofNat 60

def gtC : Char := Char.ofNat 62

def dquoteC : Char := Char.ofNat 34

def squoteC : Char := Char.ofNat 39

def bslashC : Char := Char.ofNat 92

/-- Embedding of a JS global single-character regex replace
`.replace(/p/g, rep)`: every occurrence of the character `p` is replaced by
the string `rep`, left to right. -/
def replaceCharL (p : Char) (rep : List Char) : List Char → List Char
  | [] => []
  | c :: cs => (if c = p then rep else [c]) ++ replaceCharL p rep cs

/-- JS truthiness test `!s` for a string-or-missing value: `null`, `undefined`
and the empty string are falsy. -/
def falsy : Option String → Bool
  | none => true
  | some s => s == ""

/-- Embedding of `escapeHtml` (server.js lines 230-238): `if (!s) return ''`,
then the five chained global replaces `& < > " '`, applied in source order. -/
def escapeHtml (s : Option String) : String :=
  match s with
  | none => ""
  | some str =>
    if str == "" then ""
    else
      String.mk
        (replaceCharL squoteC "&#39;".toList
          (replaceCharL dquoteC "&quot;".toList
            (replaceCharL gtC "&gt;".toList
              (replaceCharL ltC "&lt;".toList
                (replaceCharL ampC "&amp;".toList str.toList)))))

/-- Embedding of `escapeAttribute` (server.js lines 239-241):
`escapeHtml(s).replace(/"/g, '&quot;')`. -/
def escapeAttribute (s : Option String) : String :=
  String.mk (replaceCharL dquoteC "&quot;".toList (escapeHtml s).toList)

/-! ### Lemmas about `replaceCharL` -/

theorem mem_replaceCharL {c p : Char} {rep : List Char} :
    ∀ {l : List Char}, c ∈ replaceCharL p rep l → c ∈ rep ∨ (c ∈ l ∧ c ≠ p) := by
  intro l
  induction l with
  | nil => intro h; simp [replaceCharL] at h
  | cons a as ih =>
    intro h
    simp only [replaceCharL, List.mem_append] at h
    rcases h with h | h
    · by_cases hap : a = p
      · subst hap
        rw [if_pos rfl] at h
        exact Or.inl h
      · rw [if_neg hap] at h
        simp at h
        subst h
        exact Or.inr ⟨List.mem_cons_self _ _, hap⟩
    · rcases ih h with h' | ⟨hc, hne⟩
      · exact Or.inl h'
      · exact Or.inr ⟨List.mem_cons_of_mem _ hc, hne⟩

theorem not_mem_replaceCharL_self {p : Char} {rep : List Char} (hp : p ∉ rep)
    (l : List Char) : p ∉ replaceCharL p rep l := by
  intro h
  rcases mem_replaceCharL h with h' | ⟨_, hne⟩
  · exact hp h'
  · exact hne rfl

theorem not_mem_replaceCharL_keep {c p : Char} {rep : List Char} (hrep : c ∉ rep)
    {l : List Char} (hl : c ∉ l) : c ∉ replaceCharL p rep l := by
  intro h
  rcases mem_replaceCharL h with h' | ⟨hc, _⟩
  · exact hrep h'
  · exact hl hc

theorem replaceCharL_eq_self {p : Char} (rep : List Char) :
    ∀ {l : List Char}, p ∉ l → replaceCharL p rep l = l := by
  intro l
  induction l with
  | nil => intro _; rfl
  | cons a as ih =>
    intro h
    have hap : a ≠ p := fun e => h (e ▸ List.mem_cons_self _ _)
    have has : p ∉ as := fun e => h (List.mem_cons_of_mem _ e)
    simp [replaceCharL, hap, ih has]

/-! ### Character-freedom facts about `escapeHtml` -/

theorem escapeHtml_no_dquote (s : Option String) :
    dquoteC ∉ (escapeHtml s).toList := by
  match s with
  | none => simp [escapeHtml]
  | some str =>
    by_cases h : str == ""
    · simp [escapeHtml, h]
    · simp only [escapeHtml, h]
      show dquoteC ∉ (String.mk _).toList
      apply not_mem_replaceCharL_keep (by decide)
      exact not_mem_replaceCharL_self (by decide) _

theorem escapeHtml_no_lt (s : Option String) : ltC ∉ (escapeHtml s).toList := by
  match s with
  | none => simp [escapeHtml]
  | some str =>
    by_cases h : str == ""
    · simp [escapeHtml, h]
    · simp only [escapeHtml, h]
      show ltC ∉ (String.mk _).toList
      apply not_mem_replaceCharL_keep (by decide)
      apply not_mem_replaceCharL_keep (by decide)
      apply not_mem_replaceCharL_keep (by decide)
      exact not_mem_replaceCharL_self (by decide) _

theorem escapeHtml_no_gt (s : Option String) : gtC ∉ (escapeHtml s).toList := by
  match s with
  | none => simp [escapeHtml]
  | some str =>
    by_cases h : str == ""
    · simp [escapeHtml, h]
    · simp only [escapeHtml, h]
      show gtC ∉ (String.mk _).toList
      apply not_mem_replaceCharL_keep (by decide)
      apply not_mem_replaceCharL_keep (by decide)
      exact not_mem_replaceCharL_self (by decide) _

theorem escapeHtml_no_squote (s : Option String) :
    squoteC ∉ (escapeHtml s).toList := by
  match s with
  | none => simp [escapeHtml]
  | some str =>
    by_cases h : str == ""
    · simp [escapeHtml, h]
    · simp only [escapeHtml, h]
      show squoteC ∉ (String.mk _).toList
      exact not_mem_replaceCharL_self (by decide) _

/-- String.mk of toList is the identity (structure eta). -/
theorem string_mk_toList (s : String) : String.mk s.toList = s := rfl

/-! ### Image normalizer (`optimizeBuffer`, server.js lines 57-75) -/

/-- Result of `sharp(...).metadata()`: width/height may be absent. -/
structure ImgMeta where
  width : Option Nat
  height : Option Nat
deriving DecidableEq

/-- Oracle describing one `sharp(buffer).rotate()` pipeline invocation:
whether pipeline construction throws, the `metadata()` outcome, and the
`resize(w,h).jpeg(...).toBuffer()` outcome as a function of the computed
resize target. -/
structure SharpCall where
  ctorThrows : Bool
  metadata : Except Unit ImgMeta
  encode : Int → Int → Except Unit (List Nat)

/-- The codec oracle, indexed by the call arguments (buffer, maxDim, quality). -/
abbrev SharpOracle := List Nat → Nat → Nat → SharpCall

/-- JS `x || d` for an optional number: `undefined` and `0` are falsy. -/
def jsOr (x : Option Nat) (d : Nat) : Nat :=
  match x with
  | none => d
  | some 0 => d
  | some n => n

/-- JS `Math.round` on a nonnegative rational: `⌊q + 1/2⌋`. -/
def jsRound (q : ℚ) : ℤ := ⌊q + 1 / 2⌋

/-- `const ratio = maxSide > maxDim ? (maxDim / maxSide) : 1` with
`maxSide = Math.max(width, height)` (server.js lines 61-62). -/
def scaleRatio (w h maxDim : Nat) : ℚ :=
  if max w h > maxDim then (maxDim : ℚ) / (max w h : ℚ) else 1

/-- `const width = Math.round(width * ratio)` (server.js line 63). -/
def targetWidth (w h maxDim : Nat) : Int :=
  jsRound ((w : ℚ) * scaleRatio w h maxDim)

/-- `const height = Math.round(height * ratio)` (server.js line 64). -/
def targetHeight (w h maxDim : Nat) : Int :=
  jsRound ((h : ℚ) * scaleRatio w h maxDim)

/-- `await img.metadata().catch(() => ({width: maxDim, height: maxDim}))`
(server.js line 60): a metadata failure is absorbed by a default. -/
def metaOrDefault (m : Except Unit ImgMeta) (maxDim : Nat) : ImgMeta :=
  match m with
  | .error _ => ⟨some maxDim, some maxDim⟩
  | .ok mm => mm

/-- The resize target computed by `optimizeBuffer` for one sharp call. -/
def optDims (call : SharpCall) (maxDim : Nat) : Int × Int :=
  let meta := metaOrDefault call.metadata maxDim
  let w := jsOr meta.width maxDim
  let h := jsOr meta.height maxDim
  (targetWidth w h maxDim, targetHeight w h maxDim)

/-- Embedding of `optimizeBuffer(buffer, maxDim, quality)` (server.js lines
57-75): on pipeline-construction failure or encode failure the original
buffer is returned (the `catch` branch); otherwise the encoded bytes. -/
def optimizeBuffer (sharp : SharpOracle) (buffer : List Nat)
    (maxDim quality : Nat) : List Nat :=
  let call := sharp buffer maxDim quality
  if call.ctorThrows then buffer
  else
    let dims := optDims call maxDim
    match call.encode dims.1 dims.2 with
    | .error _ => buffer
    | .ok out => out

/-! ### Submission handler (`POST /submit`, server.js lines 111-227) -/

/-- One multer-parsed upload: `{originalname, buffer}`. -/
structure UploadedFile where
  originalname : String
  buffer : List Nat
deriving DecidableEq

/-- One entry pushed onto `uploaded` (server.js lines 160, 163). -/
structure UpEntry where
  key : String
  url : Option String
  size : Nat
  note : Option String
deriving DecidableEq

/-- Observable external effects of one request: object-store put calls,
presign calls (both as bucket-key pairs, in order) and the number of
`sendMail` attempts. -/
structure Trace where
  puts : List (String × String)
  presigns : List (String × String)
  mails : Nat
deriving DecidableEq

/-- Sequential composition of traces. -/
def Trace.merge (t u : Trace) : Trace :=
  ⟨t.puts ++ u.puts, t.presigns ++ u.presigns, t.mails + u.mails⟩

/-- Environment and external-service oracles of one request:
`S3_BUCKET`, the `randomName` generator (timestamp + random hex, modelled as
an oracle on the original filename), the sharp codec, the S3 put and presign
outcomes, and the `sendMail` outcome. -/
structure Env where
  bucket : Option String
  keyName : String → String
  sharp : SharpOracle
  uploadResult : List Nat → String → String → Except Unit Unit
  presignResult : String → String → Except Unit String
  mailResult : Except Unit Unit

/-- The parsed request: the seven form fields (absent field ↦ `none`) and the
multer file array. -/
structure Req where
  «업체명» : Option String
  «주소지» : Option String
  «전화번호» : Option String
  «SUT_할인율» : Option String
  «네이버지도링크» : Option String
  «업체소개» : Option String
  «홍보태그» : Option String
  files : List UploadedFile

/-- `req.body['홍보태그'] || ''` (server.js line 130). -/
def promoTagValue (o : Option String) : String :=
  if falsy o then "" else o.getD ""

/-- The buffer a file contributes after normalization and the single
re-compression fallback (server.js lines 151-155): quality 60 first, and if
the result still exceeds 2 MiB, one further call at quality 45 against the
original `f.buffer`. -/
def perFileBuffer (sharp : SharpOracle) (f : UploadedFile) : List Nat :=
  let buf := optimizeBuffer sharp f.buffer 800 60
  if buf.length > 2 * 1024 * 1024 then optimizeBuffer sharp f.buffer 800 45
  else buf

/-- The body of one iteration of `for (const f of files)` (server.js lines
150-164), i.e. the per-file `try` block: normalize (with fallback), build the
key, and either upload + presign (when a bucket is configured) or record a
bucket-less entry. Upload and presign failures surface as `.error` (the
thrown exception); the result also carries the trace of store calls made. -/
def processOne (env : Env) (f : UploadedFile) : Except Unit UpEntry × Trace :=
  let buf := perFileBuffer env.sharp f
  let key := "uploads/" ++ env.keyName f.originalname
  if falsy env.bucket then
    (.ok ⟨key, none, buf.length, some "S3_BUCKET not configured"⟩, ⟨[], [], 0⟩)
  else
    let b := (env.bucket).getD ""
    match env.uploadResult buf b key with
    | .error _ => (.error (), ⟨[(b, key)], [], 0⟩)
    | .ok _ =>
      match env.presignResult b key with
      | .error _ => (.error (), ⟨[(b, key)], [(b, key)], 0⟩)
      | .ok url => (.ok ⟨key, some url, buf.length, none⟩, ⟨[(b, key)], [(b, key)], 0⟩)

/-- The whole file loop (server.js lines 149-168): each iteration's `try`
body runs under a per-file `catch` that only logs, so a failed file is
recorded as skipped (by original name, as in the log line) and the loop
continues with the remaining files. Returns (uploaded, skipped, trace). -/
def fileLoop (env : Env) : List UploadedFile → List UpEntry × List String × Trace
  | [] => ([], [], ⟨[], [], 0⟩)
  | f :: rest =>
    let r := processOne env f
    let rec1 := fileLoop env rest
    match r.1 with
    | .ok e => (e :: rec1.1, rec1.2.1, r.2.merge rec1.2.2)
    | .error _ => (rec1.1, f.originalname :: rec1.2.1, r.2.merge rec1.2.2)

/-! ### Notification composer (server.js lines 170-196, 203-208) -/

/-- Embedding of `.replace(/\\n/g, '<br/>')` (server.js line 181). The regex
literal `/\\n/g` matches a literal backslash followed by the letter `n`
(the two-character sequence `\n`), NOT the newline character; occurrences
are replaced left to right, non-overlapping. -/
def replaceEscapedN : List Char → List Char
  | [] => []
  | [c] => [c]
  | c1 :: c2 :: rest =>
    if c1 = bslashC ∧ c2 = 'n' then "<br/>".toList ++ replaceEscapedN rest
    else c1 :: replaceEscapedN (c2 :: rest)

/-- The description fragment of the body:
`escapeHtml(업체소개).replace(/\\n/g,'<br/>')` (server.js line 181). -/
def renderDescription (description : Option String) : String :=
  String.mk (replaceEscapedN (escapeHtml description).toList)

/-- One `<li>` of the attached-image list (server.js lines 186-192). -/
def renderEntry (u : UpEntry) : String :=
  match u.url with
  | some url =>
    "<li><a href=\"" ++ url ++ "\">" ++ escapeHtml (some u.key) ++ " ("
      ++ toString (jsRound ((u.size : ℚ) / 1024)) ++ " KB)</a></li>"
  | none =>
    "<li>" ++ escapeHtml (some u.key) ++ " ("
      ++ toString (jsRound ((u.size : ℚ) / 1024)) ++ " KB) — (no S3)</li>"

/-- The email body template (server.js lines 171-196): the fixed markup with
each field value interpolated through `escapeHtml` (`escapeAttribute` for the
href), the description through `renderDescription`, followed by either the
attached-image list or the no-images paragraph. -/
def composeHtml (name addr phone rate link desc tag : Option String)
    (uploaded : List UpEntry) : String :=
  let base :=
    "<h2>새 업체 접수</h2>\n      <ul>\n        <li><strong>업체명:</strong> "
      ++ escapeHtml name
      ++ "</li>\n        <li><strong>주소지:</strong> " ++ escapeHtml addr
      ++ "</li>\n        <li><strong>전화번호:</strong> " ++ escapeHtml phone
      ++ "</li>\n        <li><strong>SUT 할인율:</strong> " ++ escapeHtml rate
      ++ "</li>\n        <li><strong>네이버지도 링크:</strong> <a href=\""
      ++ escapeAttribute link ++ "\">" ++ escapeHtml link
      ++ "</a></li>\n        <li><strong>홍보태그:</strong> " ++ escapeHtml tag
      ++ "</li>\n      </ul>\n      <h3>업체 소개</h3>\n      <p>"
      ++ renderDescription desc
      ++ "</p>\n      <hr/>"
  if uploaded.length ≠ 0 then
    base ++ "<h3>첨부 이미지 (" ++ toString uploaded.length ++ ")</h3><ul>"
      ++ String.join (uploaded.map renderEntry) ++ "</ul>"
  else
    base ++ "<p>첨부 이미지 없음 또는 업로드 실패</p>"

/-- The email subject ``[업체 접수] ${업체명}`` (server.js line 206): the raw
business name, with no escaping applied. -/
def mailSubject (name : String) : String := "[업체 접수] " ++ name

/-- HTTP-level outcome sent by the handler. -/
structure Response where
  status : Nat
  ok : Bool
  message : String
deriving DecidableEq

/-- Embedding of the `POST /submit` handler body (server.js lines 111-227):
validate the six required fields (400 on any falsy one, before any store or
mail call), run the file loop, compose the message, attempt the mail send
(500 with the mail-failure message if it throws), else 200. Returns the
response together with the trace of external calls. -/
def handleSubmit (env : Env) (req : Req) : Response × Trace :=
  if falsy req.«업체명» || falsy req.«주소지» || falsy req.«전화번호»
      || falsy req.«SUT_할인율» || falsy req.«네이버지도링크» || falsy req.«업체소개» then
    (⟨400, false, "필수 항목 누락"⟩, ⟨[], [], 0⟩)
  else
    let r := fileLoop env req.files
    let _html := composeHtml req.«업체명» req.«주소지» req.«전화번호» req.«SUT_할인율»
      req.«네이버지도링크» req.«업체소개» (some (promoTagValue req.«홍보태그»)) r.1
    let _subject := mailSubject (req.«업체명».getD "")
    let t := r.2.2
    match env.mailResult with
    | .error _ =>
      (⟨500, false, "이메일 전송에 실패했습니다. 관리자에게 문의하세요."⟩,
        ⟨t.puts, t.presigns, t.mails + 1⟩)
    | .ok _ =>
      (⟨200, true, "접수 완료. 이메일 발송됨."⟩, ⟨t.puts, t.presigns, t.mails + 1⟩)

/-! ### Claim theorems: escaping (C8, C9, C1, C5) -/

/-- Claim C8: for every input, `escapeAttribute` returns exactly `escapeHtml`
of it: `escapeHtml`'s output contains no remaining double quote, so the extra
double-quote replacement inside `escapeAttribute` is a no-op. -/
theorem C8_escapeAttribute_eq_escapeHtml (s : Option String) :
    dquoteC ∉ (escapeHtml s).toList ∧ escapeAttribute s = escapeHtml s := by
  refine ⟨escapeHtml_no_dquote s, ?_⟩
  unfold escapeAttribute
  rw [replaceCharL_eq_self _ (escapeHtml_no_dquote s)]
  exact string_mk_toList _

/-- Claim C8 witness at a concrete input containing a double quote. -/
theorem C8_witness :
    escapeAttribute (some "a\"b") = escapeHtml (some "a\"b") :=
  (C8_escapeAttribute_eq_escapeHtml (some "a\"b")).2

/-- Claim C9: `escapeHtml` maps `null`/`undefined` (modelled as `none`) and
the empty string to the empty string, and for every input its output contains
no raw `<`, `>`, `"` or `'` character. -/
theorem C9_escapeHtml_markup_free (s : Option String) :
    escapeHtml none = "" ∧ escapeHtml (some "") = "" ∧
    ltC ∉ (escapeHtml s).toList ∧ gtC ∉ (escapeHtml s).toList ∧
    dquoteC ∉ (escapeHtml s).toList ∧ squoteC ∉ (escapeHtml s).toList :=
  ⟨rfl, rfl, escapeHtml_no_lt s, escapeHtml_no_gt s,
    escapeHtml_no_dquote s, escapeHtml_no_squote s⟩

/-- Claim C9 witness at a concrete input containing all four characters. -/
theorem C9_witness :
    ltC ∉ (escapeHtml (some "<i>\"x'")).toList ∧
    gtC ∉ (escapeHtml (some "<i>\"x'")).toList ∧
    dquoteC ∉ (escapeHtml (some "<i>\"x'")).toList ∧
    squoteC ∉ (escapeHtml (some "<i>\"x'")).toList :=
  ⟨(C9_escapeHtml_markup_free (some "<i>\"x'")).2.2.1,
    (C9_escapeHtml_markup_free (some "<i>\"x'")).2.2.2.1,
    (C9_escapeHtml_markup_free (some "<i>\"x'")).2.2.2.2.1,
    (C9_escapeHtml_markup_free (some "<i>\"x'")).2.2.2.2.2⟩

/-- Claim C1 counterexample: for the business name `"<b>` the subject line
(server.js line 206) contains the raw `"` and `<` characters — the subject is
built from the unescaped name, so it does not render escaped entities. -/
theorem C1_counterexample :
    ltC ∈ (mailSubject "\"<b>").toList ∧
    dquoteC ∈ (mailSubject "\"<b>").toList ∧
    mailSubject "\"<b>" ≠ "[업체 접수] " ++ escapeHtml (some "\"<b>") := by
  decide

/-- Everything of the body template after the escaped business name, used to
decompose `composeHtml`. -/
def composeHtmlRest (addr phone rate link desc tag : Option String)
    (uploaded : List UpEntry) : String :=
  "</li>\n        <li><strong>주소지:</strong> " ++ escapeHtml addr
    ++ "</li>\n        <li><strong>전화번호:</strong> " ++ escapeHtml phone
    ++ "</li>\n        <li><strong>SUT 할인율:</strong> " ++ escapeHtml rate
    ++ "</li>\n        <li><strong>네이버지도 링크:</strong> <a href=\""
    ++ escapeAttribute link ++ "\">" ++ escapeHtml link
    ++ "</a></li>\n        <li><strong>홍보태그:</strong> " ++ escapeHtml tag
    ++ "</li>\n      </ul>\n      <h3>업체 소개</h3>\n      <p>"
    ++ renderDescription desc
    ++ "</p>\n      <hr/>"
    ++ (if uploaded.length ≠ 0 then
          "<h3>첨부 이미지 (" ++ toString uploaded.length ++ ")</h3><ul>"
            ++ String.join (uploaded.map renderEntry) ++ "</ul>"
        else "<p>첨부 이미지 없음 또는 업로드 실패</p>")

/-- Claim C1 amended: the email body interpolates the business name through
`escapeHtml`, whose output contains no raw `<`, `>` or `"`; the subject line,
however, includes the business name verbatim with no escaping applied. -/
theorem C1_amended_body_escaped_subject_raw
    (name addr phone rate link desc tag : Option String)
    (uploaded : List UpEntry) (nm : String) :
    mailSubject nm = "[업체 접수] " ++ nm ∧
    ltC ∉ (escapeHtml name).toList ∧ gtC ∉ (escapeHtml name).toList ∧
    dquoteC ∉ (escapeHtml name).toList ∧
    composeHtml name addr phone rate link desc tag uploaded
      = "<h2>새 업체 접수</h2>\n      <ul>\n        <li><strong>업체명:</strong> "
        ++ escapeHtml name ++ composeHtmlRest addr phone rate link desc tag uploaded := by
  refine ⟨rfl, escapeHtml_no_lt name, escapeHtml_no_gt name,
    escapeHtml_no_dquote name, ?_⟩
  by_cases hlen : uploaded.length ≠ 0 <;>
    simp only [composeHtml, composeHtmlRest, hlen, if_true, if_false,
      ite_true, ite_false, String.append_assoc, ne_eq, not_false_eq_true,
      not_true_eq_false]

/-- Claim C5, behavior of the code at the failing input: for a description
containing a real newline character, the rendered description fragment is
returned unchanged — no `<br/>` is inserted (the fragment contains no `<` at
all), because the source regex `/\\n/g` matches a literal backslash followed
by `n`, not the newline character. A description containing the literal
two-character sequence backslash-`n` IS converted to `<br/>`. -/
theorem C5_newline_not_converted :
    renderDescription (some "a\nb") = "a\nb" ∧
    Char.ofNat 10 ∈ (renderDescription (some "a\nb")).toList ∧
    ltC ∉ (renderDescription (some "a\nb")).toList ∧
    renderDescription (some "a\\nb") = "a<br/>b" := by
  decide

/-! ### Claim theorems: orchestrator (C2, C3, C4) -/

/-- `processOne` makes no mail call. -/
theorem processOne_mails (env : Env) (f : UploadedFile) :
    (processOne env f).2.mails = 0 := by
  unfold processOne
  split
  · rfl
  · dsimp only
    split
    · rfl
    · split <;> rfl

/-- The file loop makes no mail call. -/
theorem fileLoop_mails (env : Env) (files : List UploadedFile) :
    (fileLoop env files).2.2.mails = 0 := by
  induction files with
  | nil => rfl
  | cons f rest ih =>
    unfold fileLoop
    dsimp only
    split <;> simp [Trace.merge, processOne_mails, ih]

/-- Every file contributes exactly one outcome to the loop: uploaded entries
and skipped names together count the files. -/
theorem fileLoop_count (env : Env) (files : List UploadedFile) :
    (fileLoop env files).1.length + (fileLoop env files).2.1.length
      = files.length := by
  induction files with
  | nil => rfl
  | cons f rest ih =>
    unfold fileLoop
    dsimp only
    split <;> simp <;> omega

/-- Claim C2: when at least one of the six required fields is absent or
empty, the handler answers 400 with `ok:false` and the missing-fields
message, and the trace is empty: no object-store put, no presign, and no
mail send happened. -/
theorem C2_missing_field_rejected (env : Env) (req : Req)
    (h : falsy req.«업체명» = true ∨ falsy req.«주소지» = true
      ∨ falsy req.«전화번호» = true ∨ falsy req.«SUT_할인율» = true
      ∨ falsy req.«네이버지도링크» = true ∨ falsy req.«업체소개» = true) :
    handleSubmit env req = (⟨400, false, "필수 항목 누락"⟩, ⟨[], [], 0⟩) := by
  have hb : (falsy req.«업체명» || falsy req.«주소지» || falsy req.«전화번호»
      || falsy req.«SUT_할인율» || falsy req.«네이버지도링크»
      || falsy req.«업체소개») = true := by
    rcases h with h | h | h | h | h | h <;> simp [h]
  simp [handleSubmit, hb]

/-- An environment whose oracles are all trivial (no bucket, failing codec,
succeeding store and mail). -/
def basicEnv : Env :=
  ⟨none, fun _ => "k", fun _ _ _ => ⟨true, .error (), fun _ _ => .error ()⟩,
    fun _ _ _ => .ok (), fun _ _ => .ok "u", .ok ()⟩

/-- A request whose business-name field is absent. -/
def req400 : Req :=
  ⟨none, some "a", some "p", some "r", some "l", some "d", none, []⟩

/-- Claim C2 witness: a concrete submission missing `업체명` is rejected with
400 and an empty effect trace. -/
theorem C2_witness :
    falsy req400.«업체명» = true ∧
    handleSubmit basicEnv req400 = (⟨400, false, "필수 항목 누락"⟩, ⟨[], [], 0⟩) :=
  ⟨rfl, C2_missing_field_rejected basicEnv req400 (Or.inl rfl)⟩

/-- Claim C3: for every valid submission (all six required fields non-falsy)
whose mail dispatch throws, the handler answers 500 with `ok:false` and the
mail-failure message — whatever the files and the upload outcomes were — and
exactly one mail send was attempted. -/
theorem C3_mail_failure_500 (env : Env) (req : Req)
    (hv : (falsy req.«업체명» || falsy req.«주소지» || falsy req.«전화번호»
      || falsy req.«SUT_할인율» || falsy req.«네이버지도링크»
      || falsy req.«업체소개») = false)
    (hm : env.mailResult = .error ()) :
    (handleSubmit env req).1
      = ⟨500, false, "이메일 전송에 실패했습니다. 관리자에게 문의하세요."⟩ ∧
    (handleSubmit env req).2.mails = 1 := by
  constructor <;> simp [handleSubmit, hv, hm, fileLoop_mails]

/-- An environment with a configured bucket, succeeding uploads and presigns,
and a failing mail transport. -/
def envMailFail : Env :=
  ⟨some "b", fun _ => "k1", fun _ _ _ => ⟨true, .error (), fun _ _ => .error ()⟩,
    fun _ _ _ => .ok (), fun _ _ => .ok "http://u", .error ()⟩

/-- A fully-populated request with one attached file. -/
def reqValid : Req :=
  ⟨some "n", some "a", some "p", some "r", some "l", some "d", some "t",
    [⟨"x.jpg", [1, 2]⟩]⟩

/-- Claim C3 witness: a concrete valid submission whose upload succeeds but
whose mail send fails gets the 500 mail-failure response. -/
theorem C3_witness :
    (falsy reqValid.«업체명» || falsy reqValid.«주소지» || falsy reqValid.«전화번호»
      || falsy reqValid.«SUT_할인율» || falsy reqValid.«네이버지도링크»
      || falsy reqValid.«업체소개») = false ∧
    envMailFail.mailResult = .error () ∧
    ((handleSubmit envMailFail reqValid).1
      = ⟨500, false, "이메일 전송에 실패했습니다. 관리자에게 문의하세요."⟩ ∧
    (handleSubmit envMailFail reqValid).2.mails = 1) :=
  ⟨rfl, rfl, C3_mail_failure_500 envMailFail reqValid rfl rfl⟩

/-- Claim C4: a per-file failure (the per-file `try` body finishing in the
thrown-exception state) never aborts the loop: the remaining files produce
exactly the outcomes they produce on their own, the failed file is recorded
as skipped under its original name, and every file of the batch is accounted
for as either uploaded or skipped (no exception escapes the loop). -/
theorem C4_per_file_fault_isolation (env : Env) (f : UploadedFile)
    (rest : List UploadedFile) (h : (processOne env f).1 = .error ()) :
    (fileLoop env (f :: rest)).1 = (fileLoop env rest).1 ∧
    (fileLoop env (f :: rest)).2.1
      = f.originalname :: (fileLoop env rest).2.1 ∧
    (fileLoop env (f :: rest)).1.length + (fileLoop env (f :: rest)).2.1.length
      = (f :: rest).length := by
  have hcons : fileLoop env (f :: rest)
      = (match (processOne env f).1 with
         | .ok e => (e :: (fileLoop env rest).1, (fileLoop env rest).2.1,
             (processOne env f).2.merge (fileLoop env rest).2.2)
         | .error _ => ((fileLoop env rest).1,
             f.originalname :: (fileLoop env rest).2.1,
             (processOne env f).2.merge (fileLoop env rest).2.2)) := rfl
  refine ⟨?_, ?_, fileLoop_count env (f :: rest)⟩ <;> rw [hcons, h]

/-- An environment whose object-store upload always fails. -/
def envUpFail : Env :=
  ⟨some "b", fun s => s, fun _ _ _ => ⟨true, .error (), fun _ _ => .error ()⟩,
    fun _ _ _ => .error (), fun _ _ => .ok "u", .ok ()⟩

def fileA : UploadedFile := ⟨"a.jpg", [1]⟩

def fileB : UploadedFile := ⟨"b.jpg", [2]⟩

/-- Claim C4 witness: with a failing store, the first file's failure leaves
the second file processed and the first recorded as skipped. -/
theorem C4_witness :
    (processOne envUpFail fileA).1 = .error () ∧
    (fileLoop envUpFail [fileA, fileB]).1 = (fileLoop envUpFail [fileB]).1 ∧
    (fileLoop envUpFail [fileA, fileB]).2.1
      = "a.jpg" :: (fileLoop envUpFail [fileB]).2.1 ∧
    (fileLoop envUpFail [fileA, fileB]).1.length
      + (fileLoop envUpFail [fileA, fileB]).2.1.length = 2 := by
  have h : (processOne envUpFail fileA).1 = .error () := rfl
  exact ⟨h, (C4_per_file_fault_isolation envUpFail fileA [fileB] h).1,
    (C4_per_file_fault_isolation envUpFail fileA [fileB] h).2.1,
    (C4_per_file_fault_isolation envUpFail fileA [fileB] h).2.2⟩

/-! ### Claim theorems: normalizer (C6, C7, C10) -/

/-- Claim C6: when the quality-60 normalized result exceeds 2 MiB, the buffer
a file contributes is exactly one further normalizer invocation at quality 45
against the original uploaded bytes `f.buffer` — unconditionally, so no
second fallback round happens even if that result still exceeds 2 MiB. -/
theorem C6_single_fallback_round (sharp : SharpOracle) (f : UploadedFile)
    (h : (optimizeBuffer sharp f.buffer 800 60).length > 2 * 1024 * 1024) :
    perFileBuffer sharp f = optimizeBuffer sharp f.buffer 800 45 := by
  simp [perFileBuffer, h]

/-- A codec oracle whose quality-60 encode output is larger than 2 MiB and
whose quality-45 output is small. -/
def bigSharp : SharpOracle := fun _ _ q =>
  ⟨false, .ok ⟨some 10, some 10⟩,
    fun _ _ => .ok (List.replicate (if q = 60 then 2097153 else 5) 0)⟩

def bigFile : UploadedFile := ⟨"big.jpg", [0]⟩

/-- Claim C6 witness: a concrete oversized quality-60 result triggers exactly
the quality-45 call on the original bytes. -/
theorem C6_witness :
    (optimizeBuffer bigSharp bigFile.buffer 800 60).length > 2 * 1024 * 1024 ∧
    perFileBuffer bigSharp bigFile = optimizeBuffer bigSharp bigFile.buffer 800 45 := by
  have h1 : optimizeBuffer bigSharp bigFile.buffer 800 60
      = List.replicate 2097153 0 := by
    simp only [optimizeBuffer, bigSharp, bigFile, Bool.false_eq_true, if_false,
      ite_true, ite_false]
  have h : (optimizeBuffer bigSharp bigFile.buffer 800 60).length
      > 2 * 1024 * 1024 := by
    rw [h1, List.length_replicate]
    norm_num
  exact ⟨h, C6_single_fallback_round bigSharp bigFile h⟩

theorem jsRound_natCast (n : ℕ) : jsRound (n : ℚ) = n := by
  unfold jsRound
  rw [add_comm, Int.floor_add_nat]
  norm_num

theorem jsRound_le_nat {q : ℚ} {n : ℕ} (h : q ≤ n) : jsRound q ≤ n := by
  calc jsRound q ≤ jsRound (n : ℚ) := Int.floor_le_floor (by linarith)
    _ = n := jsRound_natCast n

theorem scaleRatio_nonneg (w h maxDim : Nat) : 0 ≤ scaleRatio w h maxDim := by
  unfold scaleRatio
  split
  · positivity
  · norm_num

theorem scaleRatio_le_one (w h maxDim : Nat) : scaleRatio w h maxDim ≤ 1 := by
  unfold scaleRatio
  split
  · rename_i hgt
    have hpos : (0 : ℚ) < (max w h : ℚ) := by
      exact_mod_cast Nat.lt_of_le_of_lt (Nat.zero_le _) hgt
    rw [div_le_one hpos]
    exact_mod_cast Nat.le_of_lt hgt
  · exact le_refl 1

/-- The computed resize side for an original side `d ≤ max w h` never
exceeds the configured maximum dimension. -/
theorem jsRound_target_le_maxDim (d w h maxDim : Nat) (hd : d ≤ max w h) :
    jsRound ((d : ℚ) * scaleRatio w h maxDim) ≤ (maxDim : ℤ) := by
  unfold scaleRatio
  split
  · rename_i hgt
    have hpos : (0 : ℚ) < (max w h : ℚ) := by
      exact_mod_cast Nat.lt_of_le_of_lt (Nat.zero_le _) hgt
    apply jsRound_le_nat
    rw [mul_div_assoc', div_le_iff₀ hpos]
    have hd' : (d : ℚ) ≤ (max w h : ℚ) := by exact_mod_cast hd
    have hm' : (0 : ℚ) ≤ (maxDim : ℚ) := by positivity
    nlinarith
  · rename_i hle
    have hle' : max w h ≤ maxDim := Nat.le_of_not_lt hle
    rw [mul_one]
    apply jsRound_le_nat
    exact_mod_cast Nat.le_trans hd hle'

/-- The computed resize side for an original side `d` never exceeds `d`
(no upscaling of either side). -/
theorem jsRound_target_le_self (d w h maxDim : Nat) :
    jsRound ((d : ℚ) * scaleRatio w h maxDim) ≤ (d : ℤ) := by
  apply jsRound_le_nat
  have h1 := scaleRatio_le_one w h maxDim
  have h0 := scaleRatio_nonneg w h maxDim
  nlinarith

theorem jsOr_some_pos (n d : Nat) (hn : 0 < n) : jsOr (some n) d = n := by
  cases n with
  | zero => omega
  | succ k => rfl

/-- Claim C7: for an input image with readable positive dimensions, the scale
factor is at most 1 (never upscaling), the normalizer computes exactly the
rounded scaled sides, and the resize target's longer side is bounded by the
configured maximum dimension and by the original longer side. -/
theorem C7_no_upscale (w h maxDim : Nat) (call : SharpCall)
    (hw : 0 < w) (hh : 0 < h) (hm : 0 < maxDim)
    (hmeta : call.metadata = .ok ⟨some w, some h⟩) :
    scaleRatio w h maxDim ≤ 1 ∧
    optDims call maxDim = (targetWidth w h maxDim, targetHeight w h maxDim) ∧
    max (targetWidth w h maxDim) (targetHeight w h maxDim) ≤ (maxDim : ℤ) ∧
    max (targetWidth w h maxDim) (targetHeight w h maxDim)
      ≤ ((max w h : ℕ) : ℤ) := by
  refine ⟨scaleRatio_le_one w h maxDim, ?_, ?_, ?_⟩
  · simp [optDims, hmeta, metaOrDefault, jsOr_some_pos w maxDim hw,
      jsOr_some_pos h maxDim hh]
  · exact max_le (jsRound_target_le_maxDim w w h maxDim (le_max_left w h))
      (jsRound_target_le_maxDim h w h maxDim (le_max_right w h))
  · apply max_le
    · exact le_trans (jsRound_target_le_self w w h maxDim)
        (by exact_mod_cast le_max_left w h)
    · exact le_trans (jsRound_target_le_self h w h maxDim)
        (by exact_mod_cast le_max_right w h)

/-- A sharp call with readable 1000×500 metadata. -/
def c7call : SharpCall := ⟨false, .ok ⟨some 1000, some 500⟩, fun _ _ => .ok []⟩

/-- Claim C7 witness at a concrete 1000×500 image and maximum dimension 800. -/
theorem C7_witness :
    (0 < 1000 ∧ 0 < 500 ∧ 0 < 800
      ∧ c7call.metadata = .ok ⟨some 1000, some 500⟩) ∧
    (scaleRatio 1000 500 800 ≤ 1 ∧
     optDims c7call 800 = (targetWidth 1000 500 800, targetHeight 1000 500 800) ∧
     max (targetWidth 1000 500 800) (targetHeight 1000 500 800) ≤ (800 : ℤ) ∧
     max (targetWidth 1000 500 800) (targetHeight 1000 500 800)
       ≤ ((max 1000 500 : ℕ) : ℤ)) :=
  ⟨⟨by decide, by decide, by decide, rfl⟩,
    C7_no_upscale 1000 500 800 c7call (by decide) (by decide) (by decide) rfl⟩

/-- A codec oracle whose metadata read fails but whose encode succeeds with
bytes different from the input. -/
def metaFailSharp : SharpOracle := fun _ _ _ =>
  ⟨false, .error (), fun _ _ => .ok [1, 2, 3]⟩

/-- Claim C10 counterexample: with a failing metadata read and a succeeding
encode, `optimizeBuffer` resolves with the encoded bytes, not with the
original input buffer — so a metadata-read failure does not mean the original
buffer is returned unchanged. -/
theorem C10_counterexample :
    (metaFailSharp [9, 9, 9, 9] 800 65).metadata = .error () ∧
    optimizeBuffer metaFailSharp [9, 9, 9, 9] 800 65 = [1, 2, 3] ∧
    optimizeBuffer metaFailSharp [9, 9, 9, 9] 800 65 ≠ [9, 9, 9, 9] :=
  ⟨rfl, rfl, by decide⟩

/-- Claim C10 amended: `optimizeBuffer` never rejects: the caller always
receives bytes — either the original buffer unchanged (in particular whenever
pipeline construction or the encode step fails) or the output of a
successful encode. A metadata-read failure alone is absorbed by the
`maxDim × maxDim` fallback dimensions and processing continues. -/
theorem C10_amended_total_lenient (sharp : SharpOracle) (buffer : List Nat)
    (maxDim quality : Nat) :
    optimizeBuffer sharp buffer maxDim quality = buffer ∨
    ∃ out, (sharp buffer maxDim quality).encode
        (optDims (sharp buffer maxDim quality) maxDim).1
        (optDims (sharp buffer maxDim quality) maxDim).2 = .ok out ∧
      optimizeBuffer sharp buffer maxDim quality = out := by
  by_cases hc : (sharp buffer maxDim quality).ctorThrows = true
  · left
    simp [optimizeBuffer, hc]
  · cases he : (sharp buffer maxDim quality).encode
        (optDims (sharp buffer maxDim quality) maxDim).1
        (optDims (sharp buffer maxDim quality) maxDim).2 with
    | error e =>
      left
      simp [optimizeBuffer, hc, he]
    | ok out =>
      right
      refine ⟨out, rfl, ?_⟩
      simp [optimizeBuffer, hc, he]
